import Mathlib

set_option linter.unusedVariables false

/-!
Shallow embedding of the astropi-remote-control core: the single-slot
asynchronous command executor of `src/commander.py` and the settings
cache / text parser of `src/camera_manager.py`.
-/

/-- Stored outputs of the last completed command: the fields `_last_stdout`,
`_last_stderr` and `_last_return_code` of `Commander` (`src/commander.py`
lines 32-35). All three start out as Python `None`. -/
structure Outputs where
  stdout : Option String
  stderr : Option String
  rc : Option Int
deriving DecidableEq

/-- A job handed to the executor: the external command line and its run
timeout (the arguments of `execute_command`, `src/commander.py` line 122). -/
structure Job where
  cmd : List String
  run_timeout : Int
deriving DecidableEq

/-- Outcome of running one job on the worker (`_run_command_internal`,
`src/commander.py` lines 40-82): a finished process with captured stdout,
stderr and return code, or one of the exceptional outcomes that are raised
there and re-surface inside the completion callback. -/
inductive RunOutcome where
  | completed (stdout stderr : String) (rc : Int)
  | timedOut
  | notFound
  | execError (msg : String)
deriving DecidableEq

/-- What `_update_outputs_on_completion` stores for each outcome kind
(`src/commander.py` lines 96-116): the result triple on success; on the
exceptional branches a `None` stdout, the exception text as stderr, and
return code `-1`. -/
def outputsOf : RunOutcome → Outputs
  | .completed out err rc => ⟨some out, some err, some rc⟩
  | .timedOut =>
      ⟨none, some "command timed out. Is the camera connected and responsive?", some (-1)⟩
  | .notFound =>
      ⟨none, some "command not found. Is it installed and in your PATH?", some (-1)⟩
  | .execError msg =>
      ⟨none, some ("Error during command execution: " ++ msg), some (-1)⟩

/-- Executor state: the busy flag `_is_busy`, the tracked current future
`_current_future`, the jobs submitted to the worker pool and not yet
completed (`pending`), and the stored last outputs (`src/commander.py`
lines 32-38). `pending` is kept as a list precisely so that the
single-flight invariant can be proved rather than assumed. -/
structure ExecState where
  is_busy : Bool
  current : Option Job
  pending : List Job
  last : Outputs
deriving DecidableEq

/-- A fresh `Commander()` (`src/commander.py` lines 20-38). -/
def initState : ExecState := ⟨false, none, [], ⟨none, none, none⟩⟩

/-- Effect of an admitted `execute_command` (`src/commander.py` lines
145-150): mark busy, submit the job to the executor, track its future. -/
def submitState (s : ExecState) (j : Job) : ExecState :=
  ⟨true, some j, s.pending ++ [j], s.last⟩

/-- Effect of `_update_outputs_on_completion` when job `j` finishes with
outcome `o` (`src/commander.py` lines 84-120): the finished future leaves
the pool; if it is still the tracked current future, the outputs are stored
and — in the `finally` clause, hence for every outcome kind — the busy flag
is cleared and the current future dropped; otherwise nothing else changes. -/
def completeState (s : ExecState) (j : Job) (o : RunOutcome) : ExecState :=
  if s.current = some j then
    ⟨false, none, s.pending.erase j, outputsOf o⟩
  else
    { s with pending := s.pending.erase j }

/-- Effect of `reset` called while idle (`src/commander.py` lines 223-228). -/
def resetState (s : ExecState) : ExecState :=
  { s with last := ⟨none, none, none⟩ }

/-- States reachable from a fresh `Commander()` through the state-changing
operations: an admitted submission (only ever from the idle state, lines
136-151), a completion of a submitted job, and an idle `reset` (lines
223-228; a busy `reset` raises and changes nothing). -/
inductive Reachable : ExecState → Prop
  | init : Reachable initState
  | submit (s : ExecState) (j : Job) (hr : Reachable s) (h : s.is_busy = false) :
      Reachable (submitState s j)
  | complete (s : ExecState) (j : Job) (o : RunOutcome) (hr : Reachable s)
      (h : j ∈ s.pending) : Reachable (completeState s j o)
  | reset (s : ExecState) (hr : Reachable s) (h : s.is_busy = false) :
      Reachable (resetState s)

/-- Blocking behavior of `wait_for_outputs` (`src/commander.py` lines
170-179): with no active command (`not self._is_busy or
self._current_future is None`) the stored last outputs are returned
immediately; otherwise the caller blocks on the current future. -/
inductive WaitBehavior where
  | immediate (out : Outputs)
  | blockedOn (j : Job)
deriving DecidableEq

/-- wait_for_outputs, non-blocking part (`src/commander.py` lines 170-179). -/
def wait_for_outputs (s : ExecState) : WaitBehavior :=
  match s.is_busy, s.current with
  | false, _ => .immediate s.last
  | true, none => .immediate s.last
  | true, some j => .blockedOn j

/-- Observable behavior of `abort` (`src/commander.py` lines 232-238). With
a job in flight the body executes `raise NotImplemented` — raising is all it
does: no process is terminated and no pending result is resolved. With no
job in flight it calls `self.reset()` while `self._lock` (a non-reentrant
`threading.Lock`) is already held by `abort` itself, so the inner
`with self._lock` of `reset` blocks forever. -/
inductive AbortBehavior where
  | raisesStub
  | selfDeadlock
deriving DecidableEq

/-- abort (`src/commander.py` lines 232-238). -/
def abort (s : ExecState) : AbortBehavior :=
  if s.is_busy then .raisesStub else .selfDeadlock

/-- The BusyError message (`src/commander.py` line 138). -/
def busyMessage : String :=
  "A command is already running. Please wait or retrieve its output."

/-- The `BusyError` exception (`src/commander.py` lines 10-12). -/
inductive CmdErr where
  | busyError (msg : String)
deriving DecidableEq

/-- Admission loop of `execute_command` (`src/commander.py` lines 134-151),
seen through the slot occupancy `busy i` observed at the i-th poll (the
initial check, plus one further check after each one-second sleep).
`startup_timeout` is decremented by one per sleep; a poll that finds the
slot free admits the submission (the returned number is the poll index at
which it was admitted), and a poll that finds it busy with no timeout
budget left raises `BusyError`. -/
def execAdmit (busy : Nat → Bool) (t : Int) (i : Nat) : Except CmdErr Nat :=
  if busy i then
    if h : t ≤ 0 then .error (.busyError busyMessage)
    else execAdmit busy (t - 1) (i + 1)
  else .ok i
termination_by t.toNat
decreasing_by omega

/-- execute_command (`src/commander.py` lines 122-151), reduced to its
admission behavior: the submission itself happens at the admitting poll. -/
def execute_command (busy : Nat → Bool) (startup_timeout : Int) : Except CmdErr Nat :=
  execAdmit busy startup_timeout 0

/-- Python `\s` (and the character class stripped by `str.strip()`) for the
ASCII inputs at hand: space, tab, newline, carriage return, vertical tab,
form feed. -/
def isPySpace (c : Char) : Bool :=
  c == ' ' || c == '\t' || c == '\n' || c == '\r' || c == Char.ofNat 11 || c == Char.ofNat 12

/-- Python `str.strip()` on a list of characters. -/
def pyStrip (l : List Char) : List Char :=
  ((l.dropWhile isPySpace).reverse.dropWhile isPySpace).reverse

/-- Index of the leftmost occurrence of `needle` in the haystack: the
position at which `re.search` anchors a pattern that begins with the
literal `needle` (the rest of the patterns used here always match). -/
def findSub (needle : List Char) : List Char → Option Nat
  | [] => if needle.isPrefixOf ([] : List Char) then some 0 else none
  | c :: t =>
    if needle.isPrefixOf (c :: t) then some 0
    else (findSub needle t).map (· + 1)

/-- parse_value (`src/camera_manager.py` lines 15-18):
`re.search(rf"{key}:\s*(.*)", text)` followed by `.group(1).strip()`.
The regex anchors at the leftmost occurrence of the literal `key ++ ":"`
anywhere in the text; the greedy `\s*` then consumes the maximal
whitespace run (newlines included, since `\s` matches `\n`), and `(.*)`
captures up to the next newline; finally the capture is stripped.
Returns `none` when the key does not occur at all. -/
def parse_value (text key : String) : Option String :=
  let needle := (key ++ ":").data
  match findSub needle text.data with
  | none => none
  | some i =>
    let after := text.data.drop (i + needle.length)
    some (String.mk (pyStrip ((after.dropWhile isPySpace).takeWhile (fun c => c ≠ '\n'))))

/-- Substring containment. -/
def containsSub (hay needle : List Char) : Bool := (findSub needle hay).isSome

/-- The error-marker test applied to stderr (`src/camera_manager.py` lines
49 and 65): Python `stderr and "error" in stderr.lower()` — false for
`None` and for the empty string (both falsy), otherwise a case-insensitive
substring test for "error". -/
def errMarker : Option String → Bool
  | none => false
  | some s => containsSub (s.data.map Char.toLower) "error".data

/-- No two adjacent underscores. -/
def noDoubleUnderscore : List Char → Bool
  | '_' :: '_' :: _ => false
  | _ :: t => noDoubleUnderscore t
  | [] => true

/-- The digit runs accepted by Python `int(...)` after the optional sign:
decimal digits with single underscores strictly between digits. -/
def intBodyOk (l : List Char) : Bool :=
  !l.isEmpty && l.all (fun c => c.isDigit || c == '_') &&
  (match l.head? with | some c => c.isDigit | none => false) &&
  (match l.getLast? with | some c => c.isDigit | none => false) &&
  noDoubleUnderscore l

/-- Numeric value of a digit run. -/
def digitsToNat (l : List Char) : Nat :=
  l.foldl (fun a c => a * 10 + (c.toNat - '0'.toNat)) 0

/-- Python `int(str)` (used at `src/camera_manager.py` line 77): strip
whitespace, accept an optional sign followed by a digit run (underscores
allowed between digits); anything else raises `ValueError`. -/
def pyInt? (s : String) : Option Int :=
  match pyStrip s.data with
  | '+' :: ds =>
      if intBodyOk ds then some (Int.ofNat (digitsToNat (ds.filter (fun c => c ≠ '_')))) else none
  | '-' :: ds =>
      if intBodyOk ds then some (-(Int.ofNat (digitsToNat (ds.filter (fun c => c ≠ '_'))))) else none
  | ds =>
      if intBodyOk ds then some (Int.ofNat (digitsToNat (ds.filter (fun c => c ≠ '_')))) else none

/-- Fuel-driven unfolding of Python `range`; the fuel passed by `pyRange`
strictly exceeds the number of elements, so it never truncates. -/
def pyRangeAux (step : Int) : Nat → Int → Int → List Int
  | 0, _, _ => []
  | fuel + 1, start, stop =>
    if (0 < step ∧ start < stop) ∨ (step < 0 ∧ stop < start) then
      start :: pyRangeAux step fuel (start + step) stop
    else []

/-- Python `range(start, stop, step)` as a list (for nonzero step; the
`step = 0` `ValueError` is raised by the caller `rangeChoices`). Each
iteration moves `start` at least one unit toward `stop`, so at most
`(stop - start).natAbs` elements are produced and the fuel suffices. -/
def pyRange (start stop step : Int) : List Int :=
  pyRangeAux step ((stop - start).natAbs + 1) start stop

/-- Python exceptions that can escape the camera-manager code paths
modelled here (`src/camera_manager.py` lines 8-12, plus the builtin
`KeyError` and `ValueError`). `cameraReadError` carries the optional
argument it is constructed with (`CameraReadError()` carries none,
`CameraReadError(stderr)` may carry Python `None`). -/
inductive PyExc where
  | cameraReadError (msg : Option String)
  | cameraWriteError (msg : Option String)
  | cameraUnknownSetting (msg : String)
  | keyError (key : String)
  | valueError (msg : String)
deriving DecidableEq

/-- Is the exception a `CameraReadError`? -/
def isReadError : PyExc → Bool
  | .cameraReadError _ => true
  | _ => false

/-- Is the exception a `CameraUnknownSettingError`? -/
def isUnknownSettingError : PyExc → Bool
  | .cameraUnknownSetting _ => true
  | _ => false

/-- Python f-string rendering of an `Optional[str]`. -/
def fmtOpt : Option String → String
  | none => "None"
  | some s => s

/-- The `ValueError` message of a failed `int(...)` conversion. -/
def intErrMsg (s : String) : String :=
  "invalid literal for int() with base 10: '" ++ s ++ "'"

/-- The RANGE choice materialization (`src/camera_manager.py` line 77):
`[str(i) for i in range(int(bottom), int(top)+1, int(step))]` after the
three fields parsed as integers, including the `ValueError` that `range`
raises on a zero step. -/
def rangeChoices (b t s : Int) : Except PyExc (List String) :=
  if s = 0 then .error (.valueError "range() arg 3 must not be zero")
  else .ok ((pyRange b (t + 1) s).map (fun z => toString z))

/-- The RANGE branch of the reload loop (`src/camera_manager.py` lines
71-77): parse `Bottom:`, `Top:`, `Step:`; if any is absent raise
`CameraReadError` with the formatted message; otherwise convert them with
`int(...)` in order (a non-numeric field raises an uncaught `ValueError`)
and materialize the range. -/
def rangeBranch (out : String) : Except PyExc (List String) :=
  match parse_value out "Bottom", parse_value out "Top", parse_value out "Step" with
  | some sb, some st, some ss =>
    (match pyInt? sb with
     | none => .error (.valueError (intErrMsg sb))
     | some b =>
       match pyInt? st with
       | none => .error (.valueError (intErrMsg st))
       | some t =>
         match pyInt? ss with
         | none => .error (.valueError (intErrMsg ss))
         | some s => rangeChoices b t s)
  | ob, ot, os =>
    .error (.cameraReadError (some ("failed to parse range: bottom: " ++ fmtOpt ob ++
      ", top: " ++ fmtOpt ot ++ ", step: " ++ fmtOpt os)))

/-- One attempt of the tail of the findall pattern `Choice:\s*\d+\s*(.*)`
at the position just after a literal `Choice:`: skip whitespace, require at
least one digit, skip whitespace, capture the rest of the line. Returns the
captured group (stripped, as done in the list comprehension at line 80)
and the remaining text after the match. -/
def parseChoiceAt (l : List Char) : Option (String × List Char) :=
  let ws1 := l.dropWhile isPySpace
  let ds := ws1.takeWhile Char.isDigit
  if ds.isEmpty then none
  else
    let rest := ws1.dropWhile Char.isDigit
    let ws2 := rest.dropWhile isPySpace
    let line := ws2.takeWhile (fun c => c ≠ '\n')
    some (String.mk (pyStrip line), ws2.drop line.length)

/-- Left-to-right non-overlapping scan of `re.findall` for the pattern
above: anchor at each occurrence of the literal `Choice:`; on a failed
attempt resume the scan one character further, on a success resume after
the match. Fuel decreases with the text length, so `findAllChoices`'s fuel
suffices. -/
def findAllChoicesAux : Nat → List Char → List String
  | 0, _ => []
  | fuel + 1, l =>
    match findSub ("Choice:".data) l with
    | none => []
    | some i =>
      match parseChoiceAt (l.drop (i + 7)) with
      | some (v, rest) => v :: findAllChoicesAux fuel rest
      | none => findAllChoicesAux fuel (l.drop (i + 1))

/-- The RADIO branch `re.findall(r"Choice:\s*\d+\s*(.*)", stdout)` with
`.strip()` applied to each capture (`src/camera_manager.py` lines 78-80). -/
def findAllChoices (l : List Char) : List String :=
  findAllChoicesAux (l.length + 1) l

/-- A cached setting: the inner `ConfigEntry` class of `CameraManager`
(`src/camera_manager.py` lines 24-28). `value` is an `Option` because
`reload_camera` stores the raw result of `parse_value`, which is Python
`None` when the response has no `Current:` line; a fresh entry holds the
empty string. -/
structure ConfigEntry where
  path : String
  value : Option String
  choices : List String
deriving DecidableEq

/-- The configuration map built in `CameraManager.__init__`
(`src/camera_manager.py` lines 31-38), in insertion order. -/
def initial_config_map : List (String × ConfigEntry) :=
  [("shutter-speed", ⟨"/main/capturesettings/shutterspeed", some "", []⟩),
   ("iso", ⟨"/main/imgsettings/iso", some "", []⟩),
   ("aperture", ⟨"/main/capturesettings/f-number", some "", []⟩),
   ("manual-focus", ⟨"/main/actions/manualfocus", some "", []⟩),
   ("crop", ⟨"/main/capturesettings/sensorcrop", some "", []⟩),
   ("aspect-ratio", ⟨"/main/capturesettings/aspectratio", some "", []⟩)]

/-- The triple returned by `wait_for_outputs` for one device command. -/
structure WaitResp where
  stdout : Option String
  stderr : Option String
  rc : Int
deriving DecidableEq

/-- Body of one iteration of the `reload_camera` loop (`src/camera_manager.py`
lines 58-87) for the entry `e`, given the outputs `resp` of the
`--get-config` job issued for `e.path`. On success the entry's cached value
and choices are overwritten (lines 86-87); every failure raises before
touching the entry. -/
def processSetting (resp : WaitResp) (e : ConfigEntry) : Except PyExc ConfigEntry :=
  match resp.stdout with
  | none => .error (.cameraReadError resp.stderr)
  | some out =>
    if out = "" ∨ errMarker resp.stderr = true then .error (.cameraReadError resp.stderr)
    else
      let value := parse_value out "Current"
      let choice_type := parse_value out "Type"
      let choicesE :=
        if choice_type = some "RANGE" then rangeBranch out
        else if choice_type = some "RADIO" then Except.ok (findAllChoices out.data)
        else Except.error (PyExc.cameraReadError
          (some ("unsupported choice type: " ++ fmtOpt choice_type)))
      match choicesE with
      | .error err => .error err
      | .ok choices =>
        if choices = [] then .error (.cameraReadError none)
        else .ok ⟨e.path, value, choices⟩

/-- The `reload_camera` pass (`src/camera_manager.py` lines 56-87) over the
ordered map, where `resp i` gives the device outputs for the i-th
`--get-config` job of the pass. Returns the final map together with the
raised exception, if any: the Python loop mutates entries in place, so
entries processed before a failure keep their new values and later entries
are left as they were. -/
def reload_pass (resp : Nat → WaitResp) : Nat → List (String × ConfigEntry) →
    List (String × ConfigEntry) × Option PyExc
  | _, [] => ([], none)
  | i, (n, e) :: rest =>
    match processSetting (resp i) e with
    | .error err => ((n, e) :: rest, some err)
    | .ok e2 =>
      let r := reload_pass resp (i + 1) rest
      ((n, e2) :: r.1, r.2)

/-- reload_camera (`src/camera_manager.py` lines 56-87). -/
def reload_camera (resp : Nat → WaitResp) (m : List (String × ConfigEntry)) :
    List (String × ConfigEntry) × Option PyExc :=
  reload_pass resp 0 m

/-- The per-entry updates a reload pass writes: each entry is replaced by
its successfully processed version (and kept as-is where processing fails).
Used to state what the updated prefix of a failing pass looks like. -/
def reload_updates (resp : Nat → WaitResp) : Nat → List (String × ConfigEntry) →
    List (String × ConfigEntry)
  | _, [] => []
  | i, (n, e) :: rest =>
    (n, match processSetting (resp i) e with | .ok e2 => e2 | .error _ => e) ::
      reload_updates resp (i + 1) rest

/-- Python dict lookup `self._config_map[setting]`. -/
def lookupEntry (m : List (String × ConfigEntry)) (setting : String) : Option ConfigEntry :=
  (m.find? (fun p => p.1 == setting)).map (fun p => p.2)

/-- The cache write of a successful `apply_setting` (`src/camera_manager.py`
line 53): only the looked-up entry's `value` field changes. -/
def updateValue (m : List (String × ConfigEntry)) (setting value : String) :
    List (String × ConfigEntry) :=
  m.map (fun p => if p.1 = setting then (p.1, ⟨p.2.path, some value, p.2.choices⟩) else p)

/-- apply_setting (`src/camera_manager.py` lines 42-53), given the outputs
`resp` of the `--set-config-value` job. The second component is the list of
command lines handed to the executor (the device-interaction trace). An
unmapped name raises a bare `KeyError` from `self._config_map[setting]`
while the command line is still being built, before `execute_command` is
ever reached, so its trace is empty. -/
def apply_setting (resp : WaitResp) (m : List (String × ConfigEntry)) (setting value : String) :
    Except PyExc (List (String × ConfigEntry)) × List (List String) :=
  match lookupEntry m setting with
  | none => (.error (.keyError setting), [])
  | some e =>
    let cmd := ["gphoto2", "--set-config-value=" ++ e.path ++ "=" ++ value]
    if errMarker resp.stderr = true then (.error (.cameraWriteError resp.stderr), [cmd])
    else if setting = "manual-focus" then (.ok m, [cmd])
    else (.ok (updateValue m setting value), [cmd])

/-- read_setting (`src/camera_manager.py` lines 89-97): an unmapped name
raises `KeyError` inside the `try`, caught and re-raised as
`CameraUnknownSettingError`; an entry whose cached value equals `""`
(never loaded) triggers a full `reload_camera` first. -/
def read_setting (resp : Nat → WaitResp) (m : List (String × ConfigEntry)) (setting : String) :
    Except PyExc ((Option String × List String) × List (String × ConfigEntry)) :=
  match lookupEntry m setting with
  | none => .error (.cameraUnknownSetting ("Unknown setting: " ++ setting))
  | some e =>
    if e.value = some "" then
      match reload_camera resp m with
      | (_, some err) => .error err
      | (m2, none) =>
        match lookupEntry m2 setting with
        | some e2 => .ok ((e2.value, e2.choices), m2)
        | none => .error (.cameraUnknownSetting ("Unknown setting: " ++ setting))
    else .ok ((e.value, e.choices), m)

/-- Replay of a device-interaction trace against the executor: each traced
command line is submitted as a job (`execute_command` at
`src/camera_manager.py` lines 43-47 uses run timeout 20 for writes). An
empty trace leaves the executor untouched. -/
def foldSubmits (s : ExecState) (cmds : List (List String)) : ExecState :=
  cmds.foldl (fun st c => submitState st ⟨c, 20⟩) s

/-- Inductive invariant of the executor: idle means no submitted job is
outstanding and no future is tracked; busy means exactly one job is
outstanding and it is the tracked one. -/
def ExecInv (s : ExecState) : Prop :=
  (s.is_busy = false → s.pending = [] ∧ s.current = none) ∧
  (s.is_busy = true → ∃ j, s.pending = [j] ∧ s.current = some j)

/-- Fuel-driven unfolding of the inclusive ascending arithmetic
progression; the fuel passed by `inclusiveProg` suffices for any positive
step. -/
def inclusiveProgAux (s : Int) : Nat → Int → Int → List Int
  | 0, _, _ => []
  | fuel + 1, b, t => if b ≤ t then b :: inclusiveProgAux s fuel (b + s) t else []

/-- The inclusive arithmetic progression from `b` to `t` stepping by `s`
described in spec §4.2 step 4 (meaningful for a positive step, which is
the only shape an ascending "from bottom to top" progression can have):
b, b+s, b+2s, ... as long as the value stays at most `t`. -/
def inclusiveProg (b t s : Int) : List Int :=
  if 0 < s then inclusiveProgAux s (t + 1 - b).toNat b t else []

/-- Occurrence of `key ++ ":"` at position `i` of the text (anywhere:
mid-line, or embedded inside a longer key). -/
def occursAt (text key : String) (i : Nat) : Bool :=
  ((key ++ ":").data).isPrefixOf (text.data.drop i)

/-- The value `parse_value` extracts at an occurrence at position `i`: skip
the maximal whitespace run after the colon (which may cross line breaks),
then take up to the end of that line, stripped. -/
def extractFrom (text key : String) (i : Nat) : String :=
  String.mk (pyStrip (((text.data.drop (i + (key ++ ":").data.length)).dropWhile
    isPySpace).takeWhile (fun c => c ≠ '\n')))

/-- The claim's reading of `parse_value`: the remainder of the very line of
the first occurrence of the key, with surrounding whitespace stripped. -/
def claimedLineValue (text key : String) : Option String :=
  match findSub ((key ++ ":").data) text.data with
  | none => none
  | some i =>
    some (String.mk (pyStrip ((text.data.drop
      (i + (key ++ ":").data.length)).takeWhile (fun c => c ≠ '\n'))))

/-- Side condition under which the two readings agree: the maximal
whitespace run after the matched colon contains no line break (vacuously
true when the key does not occur). -/
def wsRunSameLine (text key : String) : Bool :=
  match findSub ((key ++ ":").data) text.data with
  | none => true
  | some i =>
    ((text.data.drop (i + (key ++ ":").data.length)).takeWhile isPySpace).all
      (fun c => c ≠ '\n')

/-- A concrete job for witness states. -/
def job0 : Job := ⟨["gphoto2", "--get-config=/main/imgsettings/iso"], 10⟩

/-- A concrete slot-occupancy sequence: busy at the first two polls, free
from the third on. -/
def busySeqW : Nat → Bool := fun n => decide (n < 2)

/-- Outputs of a successful `--set-config-value` job: empty stdout, no
stderr. -/
def respSetOk : WaitResp := ⟨some "", none, 0⟩

/-- A realistic `--get-config` response for an ISO setting of RANGE type
(spec §8's RANGE parsing example). -/
def respIsoRange : WaitResp :=
  ⟨some "Label: ISO Speed\nReadonly: 0\nType: RANGE\nCurrent: 100\nBottom: 100\nTop: 1600\nStep: 100\nEND\n",
   some "", 0⟩

/-- A three-setting map for the reload scenarios. -/
def mapThree : List (String × ConfigEntry) :=
  [("s1", ⟨"p1", some "", []⟩), ("s2", ⟨"p2", some "", []⟩), ("s3", ⟨"p3", some "", []⟩)]

/-- Reload responses where setting 2 of 3 returns a RANGE response with the
`Top:` field missing (spec §8's failing-reload scenario). -/
def respMissingTop : Nat → WaitResp := fun i =>
  if i = 0 then ⟨some "Type: RANGE\nCurrent: 1\nBottom: 1\nTop: 3\nStep: 1\n", none, 0⟩
  else if i = 1 then ⟨some "Type: RANGE\nCurrent: 100\nBottom: 100\nStep: 1\n", none, 0⟩
  else ⟨some "Type: RADIO\nCurrent: a\nChoice: 0 a\n", none, 0⟩

/-- A RANGE response whose `Bottom:` field is present but not numeric. -/
def respBadBottomOne : WaitResp :=
  ⟨some "Type: RANGE\nCurrent: 1\nBottom: abc\nTop: 5\nStep: 1\n", none, 0⟩

/-- Reload responses where setting 2 of 3 returns the non-numeric RANGE
response above. -/
def respBadBottom : Nat → WaitResp := fun i =>
  if i = 0 then ⟨some "Type: RANGE\nCurrent: 1\nBottom: 1\nTop: 3\nStep: 1\n", none, 0⟩
  else respBadBottomOne

theorem execAdmit_unfold (busy : Nat → Bool) (t : Int) (i : Nat) :
    execAdmit busy t i =
      if busy i then
        (if t ≤ 0 then Except.error (CmdErr.busyError busyMessage)
         else execAdmit busy (t - 1) (i + 1))
      else .ok i := by
  rw [execAdmit.eq_def]
  split <;> simp

theorem execAdmit_ok_iff (busy : Nat → Bool) :
    ∀ (n : Nat) (t : Int), t.toNat = n → ∀ (i j : Nat),
      (execAdmit busy t i = .ok j ↔
        (i ≤ j ∧ j ≤ i + n ∧ busy j = false ∧ ∀ m, i ≤ m → m < j → busy m = true)) := by
  intro n
  induction n with
  | zero =>
    intro t ht i j
    rw [execAdmit_unfold]
    by_cases hb : busy i
    · rw [if_pos hb, if_pos (by omega : t ≤ 0)]
      constructor
      · intro h; exact absurd h (by simp)
      · rintro ⟨h1, h2, h3, h4⟩
        have : j = i := by omega
        rw [this] at h3; rw [hb] at h3; exact absurd h3 (by simp)
    · rw [if_neg hb]
      constructor
      · intro h
        have : i = j := by simpa using h
        subst this
        exact ⟨le_rfl, by omega, by simpa using hb,
          fun m h1 h2 => absurd (lt_of_le_of_lt h1 h2) (lt_irrefl i)⟩
      · rintro ⟨h1, h2, h3, h4⟩
        have : j = i := by
          by_contra hne
          have hij : i < j := lt_of_le_of_ne h1 (fun e => hne e.symm)
          have := h4 i le_rfl hij
          rw [this] at hb; exact hb rfl
        rw [this]
  | succ n ih =>
    intro t ht i j
    rw [execAdmit_unfold]
    by_cases hb : busy i
    · rw [if_pos hb, if_neg (by omega : ¬ t ≤ 0)]
      rw [ih (t - 1) (by omega) (i + 1) j]
      constructor
      · rintro ⟨h1, h2, h3, h4⟩
        refine ⟨by omega, by omega, h3, ?_⟩
        intro m hm1 hm2
        rcases Nat.eq_or_lt_of_le hm1 with he | hl
        · rw [← he]; exact hb
        · exact h4 m hl hm2
      · rintro ⟨h1, h2, h3, h4⟩
        have hij : i < j := by
          rcases Nat.eq_or_lt_of_le h1 with he | hl
          · rw [← he] at h3; rw [hb] at h3; exact absurd h3 (by simp)
          · exact hl
        exact ⟨by omega, by omega, h3, fun m hm1 hm2 => h4 m (by omega) hm2⟩
    · rw [if_neg hb]
      constructor
      · intro h
        have : i = j := by simpa using h
        subst this
        exact ⟨le_rfl, by omega, by simpa using hb,
          fun m h1 h2 => absurd (lt_of_le_of_lt h1 h2) (lt_irrefl i)⟩
      · rintro ⟨h1, h2, h3, h4⟩
        have : j = i := by
          by_contra hne
          have hij : i < j := lt_of_le_of_ne h1 (fun e => hne e.symm)
          have := h4 i le_rfl hij
          rw [this] at hb; exact hb rfl
        rw [this]

theorem execAdmit_all_busy (busy : Nat → Bool) :
    ∀ (n : Nat) (t : Int), t.toNat = n → ∀ (i : Nat),
      (∀ m, i ≤ m → m ≤ i + n → busy m = true) →
      execAdmit busy t i = .error (.busyError busyMessage) := by
  intro n
  induction n with
  | zero =>
    intro t ht i hall
    rw [execAdmit_unfold, if_pos (hall i le_rfl (by omega)), if_pos (by omega : t ≤ 0)]
  | succ n ih =>
    intro t ht i hall
    rw [execAdmit_unfold, if_pos (hall i le_rfl (by omega)), if_neg (by omega : ¬ t ≤ 0)]
    exact ih (t - 1) (by omega) (i + 1) (fun m h1 h2 => hall m (by omega) (by omega))

/-- C2: while a job is in flight (the slot is busy at the initial poll),
`execute_command` fails with `BusyError` immediately when the admission
timeout is zero or negative — for every continuation of the occupancy
sequence, so no further poll is consulted; with a positive admission
timeout T it polls once per second, is admitted exactly at the first free
poll provided that poll comes within T polls of the start, and fails with
`BusyError` when the slot stays busy through all T+1 checks. -/
theorem c2_submit_admission (busy : Nat → Bool) (T : Int) (hbusy : busy 0 = true) :
    (T ≤ 0 → execute_command busy T = .error (.busyError busyMessage)) ∧
    (0 < T → ∀ j, (execute_command busy T = .ok j ↔
        (j ≤ T.toNat ∧ busy j = false ∧ ∀ m, m < j → busy m = true))) ∧
    (0 < T → (∀ j, j ≤ T.toNat → busy j = true) →
        execute_command busy T = .error (.busyError busyMessage)) := by
  refine ⟨?_, ?_, ?_⟩
  · intro hT
    rw [execute_command, execAdmit_unfold, if_pos hbusy, if_pos hT]
  · intro hT j
    rw [execute_command, execAdmit_ok_iff busy T.toNat T rfl 0 j]
    constructor
    · rintro ⟨h1, h2, h3, h4⟩
      exact ⟨by omega, h3, fun m hm => h4 m (Nat.zero_le m) hm⟩
    · rintro ⟨h1, h2, h3⟩
      exact ⟨Nat.zero_le j, by omega, h2, fun m _ hm => h3 m hm⟩
  · intro hT hall
    exact execAdmit_all_busy busy T.toNat T rfl 0 (fun m _ h2 => hall m (by omega))

theorem c2_submit_admission_witness :
    busySeqW 0 = true ∧
    execute_command busySeqW 0 = .error (.busyError busyMessage) ∧
    execute_command busySeqW 5 = .ok 2 := by
  refine ⟨by decide, ?_, ?_⟩
  · exact (c2_submit_admission busySeqW 0 (by decide)).1 (by decide)
  · exact ((c2_submit_admission busySeqW 5 (by decide)).2.1 (by decide) 2).mpr (by decide)

theorem reachable_inv (s : ExecState) (h : Reachable s) : ExecInv s := by
  induction h with
  | init =>
    exact ⟨fun _ => ⟨rfl, rfl⟩, fun hb => absurd hb (by simp [initState])⟩
  | submit s j hr hb ih =>
    obtain ⟨hp, hc⟩ := ih.1 hb
    exact ⟨fun habs => absurd habs (by simp [submitState]),
      fun _ => ⟨j, by simp [submitState, hp], by simp [submitState]⟩⟩
  | complete s j o hr hmem ih =>
    cases hbs : s.is_busy with
    | false =>
      obtain ⟨hp, _⟩ := ih.1 hbs
      rw [hp] at hmem
      exact absurd hmem (by simp)
    | true =>
      obtain ⟨j2, hp, hc⟩ := ih.2 hbs
      rw [hp] at hmem
      have hj : j = j2 := by simpa using hmem
      subst hj
      have hcur : s.current = some j := hc
      rw [completeState, if_pos hcur]
      refine ⟨fun _ => ⟨?_, rfl⟩, fun habs => absurd habs (by simp)⟩
      simp [hp]
  | reset s hr hb ih =>
    obtain ⟨hp, hc⟩ := ih.1 hb
    exact ⟨fun _ => ⟨hp, hc⟩, fun habs => absurd habs (by simp [resetState, hb] at habs ⊢)⟩

/-- C3: at every reachable executor state at most one job is in flight;
`submit` marks the state busy only from the idle state (where the pool is
empty, so the submitted job is then the only one in flight); and the
completion of the in-flight job — for every outcome kind the model has —
moves the state from busy back to idle, empties the pool, drops the
tracked future and stores that job's outputs as the last result. -/
theorem c3_single_flight (s : ExecState) (h : Reachable s) :
    s.pending.length ≤ 1 ∧
    (∀ j : Job, s.is_busy = false →
      (submitState s j).is_busy = true ∧ (submitState s j).pending = [j]) ∧
    (∀ (j : Job) (o : RunOutcome), j ∈ s.pending →
      (completeState s j o).is_busy = false ∧ (completeState s j o).pending = [] ∧
      (completeState s j o).current = none ∧ (completeState s j o).last = outputsOf o) := by
  have inv := reachable_inv s h
  refine ⟨?_, ?_, ?_⟩
  · cases hbs : s.is_busy with
    | false => simp [(inv.1 hbs).1]
    | true => obtain ⟨j2, hp, _⟩ := inv.2 hbs; simp [hp]
  · intro j hb
    obtain ⟨hp, _⟩ := inv.1 hb
    exact ⟨rfl, by simp [submitState, hp]⟩
  · intro j o hmem
    cases hbs : s.is_busy with
    | false =>
      obtain ⟨hp, _⟩ := inv.1 hbs
      rw [hp] at hmem
      exact absurd hmem (by simp)
    | true =>
      obtain ⟨j2, hp, hc⟩ := inv.2 hbs
      rw [hp] at hmem
      have hj : j = j2 := by simpa using hmem
      subst hj
      rw [completeState, if_pos hc]
      exact ⟨rfl, by simp [hp], rfl, rfl⟩

theorem c3_single_flight_witness :
    initState.pending.length ≤ 1 ∧
    (submitState initState job0).is_busy = true ∧
    (submitState initState job0).pending = [job0] ∧
    (completeState (submitState initState job0) job0 RunOutcome.timedOut).is_busy = false ∧
    (completeState (submitState initState job0) job0 RunOutcome.timedOut).pending = [] ∧
    (completeState (submitState initState job0) job0 RunOutcome.timedOut).last =
      outputsOf RunOutcome.timedOut := by
  have h0 := c3_single_flight initState Reachable.init
  have h1 := c3_single_flight (submitState initState job0)
    (Reachable.submit initState job0 Reachable.init rfl)
  obtain ⟨ha, hb, _⟩ := h0
  obtain ⟨hc, hd⟩ := hb job0 rfl
  obtain ⟨he, hf, _, hg⟩ := (h1.2.2) job0 RunOutcome.timedOut (by simp [submitState, initState])
  exact ⟨ha, hc, hd, he, hf, hg⟩

/-- C4: evaluation of `abort` at the failing inputs. With a job in flight
(busy state reached by an admitted submission) `abort` merely raises its
`NotImplemented` stub: no process is terminated and no pending result is
resolved to an Aborted status — indeed no Aborted outcome exists anywhere
in the executor. With no job in flight it does not behave as a `reset`
either: it re-acquires the non-reentrant lock it already holds and
deadlocks. -/
theorem c4_abort_stub :
    (submitState initState job0).is_busy = true ∧
    abort (submitState initState job0) = AbortBehavior.raisesStub ∧
    initState.is_busy = false ∧
    abort initState = AbortBehavior.selfDeadlock := ⟨rfl, rfl, rfl, rfl⟩

/-- C8: whenever no job is in flight, `wait_for_outputs` returns the stored
last result immediately (no blocking), and on a fresh executor — before any
job has ever run — that stored result is the all-`None` sentinel triple. -/
theorem c8_wait_idle (s : ExecState) (h : s.is_busy = false) :
    wait_for_outputs s = WaitBehavior.immediate s.last ∧
    wait_for_outputs initState = WaitBehavior.immediate ⟨none, none, none⟩ := by
  constructor
  · obtain ⟨b, c, p, l⟩ := s
    cases b with
    | false => rfl
    | true => exact absurd h (by simp)
  · rfl

theorem c8_wait_idle_witness :
    wait_for_outputs initState = WaitBehavior.immediate initState.last ∧
    wait_for_outputs initState = WaitBehavior.immediate ⟨none, none, none⟩ :=
  c8_wait_idle initState rfl

/-- C1 (amended): applying an unmapped setting name fails with an uncaught
`KeyError` from the config-map lookup — not with the
`CameraUnknownSettingError` that `read_setting` raises — and performs no
device interaction: the command trace is empty, so no job is submitted and
replaying the trace leaves any executor state (busy flag, pending jobs and
last result included) unchanged. -/
theorem c1_apply_unmapped (resp : WaitResp) (m : List (String × ConfigEntry))
    (setting value : String) (h : lookupEntry m setting = none) :
    apply_setting resp m setting value = (.error (.keyError setting), []) ∧
    isUnknownSettingError (PyExc.keyError setting) = false ∧
    (∀ s : ExecState, foldSubmits s [] = s) := by
  refine ⟨?_, rfl, fun s => rfl⟩
  rw [apply_setting, h]

theorem c1_apply_unmapped_witness :
    lookupEntry initial_config_map "nonexistent" = none ∧
    apply_setting respSetOk initial_config_map "nonexistent" "x" =
      (.error (.keyError "nonexistent"), []) :=
  ⟨by decide,
   (c1_apply_unmapped respSetOk initial_config_map "nonexistent" "x" (by decide)).1⟩

/-- C1 counterexample to the claim as stated: at the unmapped name
"nonexistent" the failure is a `KeyError`, which is not the
`CameraUnknownSettingError` of `src/camera_manager.py` line 12. -/
theorem c1_counterexample :
    (apply_setting respSetOk initial_config_map "nonexistent" "x").1 =
      .error (.keyError "nonexistent") ∧
    isUnknownSettingError (PyExc.keyError "nonexistent") = false := by
  constructor
  · rfl
  · rfl

theorem lookup_updateValue_self (m : List (String × ConfigEntry)) (setting value : String)
    (e : ConfigEntry) (h : lookupEntry m setting = some e) :
    lookupEntry (updateValue m setting value) setting = some ⟨e.path, some value, e.choices⟩ := by
  induction m with
  | nil => simp [lookupEntry] at h
  | cons p t ih =>
    by_cases hp : p.1 = setting
    · have hb : (p.1 == setting) = true := beq_iff_eq.mpr hp
      simp only [lookupEntry, updateValue, List.map_cons, List.find?_cons, if_pos hp, hb] at h ⊢
      simp only [Option.map_some'] at h ⊢
      have he : p.2 = e := by simpa using h
      simp [he]
    · have hb : (p.1 == setting) = false := beq_eq_false_iff_ne.mpr hp
      simp only [lookupEntry, updateValue, List.map_cons, List.find?_cons, if_neg hp, hb] at h ⊢
      exact ih h

theorem lookup_updateValue_other (m : List (String × ConfigEntry)) (setting value s2 : String)
    (hne : s2 ≠ setting) :
    lookupEntry (updateValue m setting value) s2 = lookupEntry m s2 := by
  induction m with
  | nil => rfl
  | cons p t ih =>
    by_cases hps : p.1 = setting
    · have hb : (p.1 == s2) = false := by
        refine beq_eq_false_iff_ne.mpr ?_
        rw [hps]; exact fun e => hne e.symm
      simp only [lookupEntry, updateValue, List.map_cons, List.find?_cons, if_pos hps, hb] at ih ⊢
      exact ih
    · cases hb : (p.1 == s2) with
      | true =>
        simp only [lookupEntry, updateValue, List.map_cons, List.find?_cons, if_neg hps, hb]
      | false =>
        simp only [lookupEntry, updateValue, List.map_cons, List.find?_cons, if_neg hps, hb] at ih ⊢
        exact ih

/-- C9: when `apply_setting` is called on a mapped setting and the job's
stderr carries no error marker, the call succeeds after submitting exactly
the one `--set-config-value` job; for `manual-focus` the whole cache
(value and choices) is left untouched, and for every other setting the
entry's cached current value becomes `value` while its path and choice
sequence, and every other entry, stay unchanged. -/
theorem c9_apply_success (resp : WaitResp) (m : List (String × ConfigEntry))
    (setting value : String) (e : ConfigEntry)
    (hl : lookupEntry m setting = some e) (he : errMarker resp.stderr = false) :
    ∃ m2, apply_setting resp m setting value =
        (.ok m2, [["gphoto2", "--set-config-value=" ++ e.path ++ "=" ++ value]]) ∧
      (setting = "manual-focus" → m2 = m) ∧
      (setting ≠ "manual-focus" →
        lookupEntry m2 setting = some ⟨e.path, some value, e.choices⟩ ∧
        ∀ s2, s2 ≠ setting → lookupEntry m2 s2 = lookupEntry m s2) := by
  by_cases hmf : setting = "manual-focus"
  · refine ⟨m, ?_, fun _ => rfl, fun hcon => absurd hmf hcon⟩
    rw [apply_setting, hl]
    simp [he, hmf]
  · refine ⟨updateValue m setting value, ?_, fun hcon => absurd hcon hmf, fun _ =>
      ⟨lookup_updateValue_self m setting value e hl,
       fun s2 hs2 => lookup_updateValue_other m setting value s2 hs2⟩⟩
    rw [apply_setting, hl]
    simp [he, hmf]

theorem c9_apply_success_witness :
    lookupEntry initial_config_map "iso" = some ⟨"/main/imgsettings/iso", some "", []⟩ ∧
    errMarker respSetOk.stderr = false ∧
    ∃ m2, apply_setting respSetOk initial_config_map "iso" "200" =
        (.ok m2, [["gphoto2", "--set-config-value=" ++ "/main/imgsettings/iso" ++ "=" ++ "200"]]) ∧
      lookupEntry m2 "iso" = some ⟨"/main/imgsettings/iso", some "200", []⟩ := by
  refine ⟨by decide, rfl, ?_⟩
  obtain ⟨m2, h1, _, h3⟩ := c9_apply_success respSetOk initial_config_map "iso" "200"
    ⟨"/main/imgsettings/iso", some "", []⟩ (by decide) rfl
  exact ⟨m2, h1, (h3 (by decide)).1⟩

theorem reload_pass_fail (resp : Nat → WaitResp) :
    ∀ (l : List (String × ConfigEntry)) (i0 k : Nat) (pk : String × ConfigEntry) (err : PyExc),
      l[k]? = some pk →
      processSetting (resp (i0 + k)) pk.2 = .error err →
      (∀ j p, j < k → l[j]? = some p → ∃ q, processSetting (resp (i0 + j)) p.2 = .ok q) →
      reload_pass resp i0 l = (reload_updates resp i0 (l.take k) ++ l.drop k, some err) := by
  intro l
  induction l with
  | nil => intro i0 k pk err hk hfail hok; simp at hk
  | cons p t ih =>
    obtain ⟨n, e⟩ := p
    intro i0 k pk err hk hfail hok
    cases k with
    | zero =>
      have hpk : pk = (n, e) := by
        have := hk
        simp at this
        exact this.symm
      subst hpk
      rw [Nat.add_zero] at hfail
      simp [reload_pass, reload_updates, hfail]
    | succ k2 =>
      have h0 := hok 0 (n, e) (Nat.succ_pos k2) (by simp)
      rw [Nat.add_zero] at h0
      obtain ⟨e2, he2⟩ := h0
      have hk2 : t[k2]? = some pk := by simpa using hk
      have hfail2 : processSetting (resp ((i0 + 1) + k2)) pk.2 = .error err := by
        rw [show (i0 + 1) + k2 = i0 + (k2 + 1) from by omega]
        exact hfail
      have hok2 : ∀ j p, j < k2 → t[j]? = some p →
          ∃ q, processSetting (resp ((i0 + 1) + j)) p.2 = .ok q := by
        intro j p hj hp
        have := hok (j + 1) p (by omega) (by simpa using hp)
        rw [show i0 + (j + 1) = (i0 + 1) + j from by omega] at this
        exact this
      simp only [reload_pass, he2, ih (i0 + 1) k2 pk err hk2 hfail2 hok2,
        List.take_succ_cons, List.drop_succ_cons, reload_updates]
      simp [he2]

/-- C5 (amended): when a reload pass fails at setting k (every earlier setting
parses successfully and setting k's processing raises), the final map is
the entries before k overwritten with the values written earlier in the
same pass, followed by the entries from k on, all unchanged (setting k is
not updated and the later settings are not attempted), and the whole
reload fails with exactly the exception raised at setting k — a
`CameraReadError`, or the uncaught `ValueError` when a range field is
present but non-numeric. -/
theorem c5_reload_prefix (resp : Nat → WaitResp) (l : List (String × ConfigEntry))
    (k : Nat) (pk : String × ConfigEntry) (err : PyExc)
    (hk : l[k]? = some pk)
    (hfail : processSetting (resp k) pk.2 = .error err)
    (hok : ∀ j p, j < k → l[j]? = some p → ∃ q, processSetting (resp j) p.2 = .ok q) :
    reload_camera resp l = (reload_updates resp 0 (l.take k) ++ l.drop k, some err) := by
  rw [reload_camera]
  refine reload_pass_fail resp l 0 k pk err hk ?_ ?_
  · simpa using hfail
  · intro j p hj hp
    simpa using hok j p hj hp

theorem c5_reload_prefix_witness :
    mapThree[1]? = some ("s2", ⟨"p2", some "", []⟩) ∧
    processSetting (respMissingTop 1) (⟨"p2", some "", []⟩ : ConfigEntry) =
      .error (.cameraReadError (some "failed to parse range: bottom: 100, top: None, step: 1")) ∧
    reload_camera respMissingTop mapThree =
      (reload_updates respMissingTop 0 (mapThree.take 1) ++ mapThree.drop 1,
       some (.cameraReadError (some "failed to parse range: bottom: 100, top: None, step: 1"))) := by
  refine ⟨by decide, by rfl, ?_⟩
  refine c5_reload_prefix respMissingTop mapThree 1 ("s2", ⟨"p2", some "", []⟩)
    (.cameraReadError (some "failed to parse range: bottom: 100, top: None, step: 1"))
    (by decide) (by rfl) ?_
  intro j p hj hp
  interval_cases j
  have hp2 : p = ("s1", (⟨"p1", some "", []⟩ : ConfigEntry)) := by
    have := hp
    simp [mapThree] at this
    exact this.symm
  subst hp2
  exact ⟨⟨"p1", some "1", ["1", "2", "3"]⟩, by rfl⟩

/-- C5 counterexample to the claim as stated: a reload pass that fails at
setting 2 because a range field is present but non-numeric fails with a
`ValueError`, not with the `Read` (`CameraReadError`) failure. -/
theorem c5_counterexample :
    (reload_camera respBadBottom mapThree).2 =
      some (.valueError "invalid literal for int() with base 10: 'abc'") ∧
    ((reload_camera respBadBottom mapThree).2.map isReadError) = some false := by
  exact ⟨rfl, rfl⟩

theorem processSetting_reduce (resp : WaitResp) (e : ConfigEntry) (out : String)
    (hout : resp.stdout = some out) (hne : ¬ out = "") (herr : errMarker resp.stderr = false)
    (htype : parse_value out "Type" = some "RANGE") (err : PyExc)
    (hrb : rangeBranch out = .error err) :
    processSetting resp e = .error err := by
  simp [processSetting, hout, hne, herr, htype, hrb]

theorem rangeBranch_missing (out : String)
    (h : parse_value out "Bottom" = none ∨ parse_value out "Top" = none ∨
      parse_value out "Step" = none) :
    ∃ msg, rangeBranch out = .error (.cameraReadError (some msg)) := by
  refine ⟨"failed to parse range: bottom: " ++ fmtOpt (parse_value out "Bottom") ++
    ", top: " ++ fmtOpt (parse_value out "Top") ++ ", step: " ++
    fmtOpt (parse_value out "Step"), ?_⟩
  cases h1 : parse_value out "Bottom" with
  | none =>
    cases h2 : parse_value out "Top" <;> cases h3 : parse_value out "Step" <;>
      simp [rangeBranch, h1, h2, h3]
  | some sb =>
    cases h2 : parse_value out "Top" with
    | none =>
      cases h3 : parse_value out "Step" <;> simp [rangeBranch, h1, h2, h3]
    | some st =>
      cases h3 : parse_value out "Step" with
      | none => simp [rangeBranch, h1, h2, h3]
      | some ss =>
        rcases h with hb | ht | hs
        · rw [h1] at hb; exact absurd hb (by simp)
        · rw [h2] at ht; exact absurd ht (by simp)
        · rw [h3] at hs; exact absurd hs (by simp)

/-- C6 (amended): in a reload pass, a RANGE response with `Bottom:`, `Top:`
or `Step:` absent makes the reload fail with the `Read` error
(`CameraReadError`); but when all three fields are present and one of them
is not numeric, the reload fails with an uncaught `ValueError` from
`int(...)`, not with the `Read` error. -/
theorem c6_range_read_error (resp : WaitResp) (e : ConfigEntry) (out : String)
    (hout : resp.stdout = some out) (hne : ¬ out = "") (herr : errMarker resp.stderr = false)
    (htype : parse_value out "Type" = some "RANGE") :
    ((parse_value out "Bottom" = none ∨ parse_value out "Top" = none ∨
        parse_value out "Step" = none) →
      ∃ msg, processSetting resp e = .error (.cameraReadError (some msg))) ∧
    (∀ sb st ss, parse_value out "Bottom" = some sb → parse_value out "Top" = some st →
      parse_value out "Step" = some ss →
      (pyInt? sb = none ∨ pyInt? st = none ∨ pyInt? ss = none) →
      ∃ msg, processSetting resp e = .error (.valueError msg)) := by
  constructor
  · intro hmiss
    obtain ⟨msg, hrb⟩ := rangeBranch_missing out hmiss
    exact ⟨msg, processSetting_reduce resp e out hout hne herr htype _ hrb⟩
  · intro sb st ss hb ht hs hint
    have hrb : ∃ msg, rangeBranch out = .error (.valueError msg) := by
      rcases hint with h1 | h1 | h1
      · exact ⟨intErrMsg sb, by simp [rangeBranch, hb, ht, hs, h1]⟩
      · cases h2 : pyInt? sb with
        | none => exact ⟨intErrMsg sb, by simp [rangeBranch, hb, ht, hs, h2]⟩
        | some b => exact ⟨intErrMsg st, by simp [rangeBranch, hb, ht, hs, h2, h1]⟩
      · cases h2 : pyInt? sb with
        | none => exact ⟨intErrMsg sb, by simp [rangeBranch, hb, ht, hs, h2]⟩
        | some b =>
          cases h3 : pyInt? st with
          | none => exact ⟨intErrMsg st, by simp [rangeBranch, hb, ht, hs, h2, h3]⟩
          | some t2 => exact ⟨intErrMsg ss, by simp [rangeBranch, hb, ht, hs, h2, h3, h1]⟩
    obtain ⟨msg, hrb⟩ := hrb
    exact ⟨msg, processSetting_reduce resp e out hout hne herr htype _ hrb⟩

theorem c6_range_read_error_witness :
    (respMissingTop 1).stdout = some "Type: RANGE\nCurrent: 100\nBottom: 100\nStep: 1\n" ∧
    parse_value "Type: RANGE\nCurrent: 100\nBottom: 100\nStep: 1\n" "Type" = some "RANGE" ∧
    parse_value "Type: RANGE\nCurrent: 100\nBottom: 100\nStep: 1\n" "Top" = none ∧
    ∃ msg, processSetting (respMissingTop 1) (⟨"p2", some "", []⟩ : ConfigEntry) =
      .error (.cameraReadError (some msg)) := by
  refine ⟨by rfl, by rfl, by rfl, ?_⟩
  exact (c6_range_read_error (respMissingTop 1) ⟨"p2", some "", []⟩
    "Type: RANGE\nCurrent: 100\nBottom: 100\nStep: 1\n"
    (by rfl) (by decide) (by rfl) (by rfl)).1 (Or.inr (Or.inl (by rfl)))

/-- C6 counterexample to the claim as stated: a RANGE response whose
`Bottom:` field is present but non-numeric makes the reload fail with a
`ValueError`, which is not the `Read` (`CameraReadError`) failure the
claim prescribes for non-numeric fields. -/
theorem c6_counterexample :
    processSetting respBadBottomOne (⟨"p", some "", []⟩ : ConfigEntry) =
      .error (.valueError "invalid literal for int() with base 10: 'abc'") ∧
    isReadError (PyExc.valueError "invalid literal for int() with base 10: 'abc'") = false := by
  exact ⟨rfl, rfl⟩

theorem pyRangeAux_eq_progAux (s : Int) (hs : 0 < s) :
    ∀ (n m : Nat) (b t : Int), (t + 1 - b).toNat ≤ n → (t + 1 - b).toNat ≤ m →
      pyRangeAux s n b (t + 1) = inclusiveProgAux s m b t := by
  intro n
  induction n with
  | zero =>
    intro m b t h1 h2
    have hbt : ¬ b ≤ t := by omega
    cases m with
    | zero => rfl
    | succ m2 => simp [pyRangeAux, inclusiveProgAux, hbt]
  | succ n ih =>
    intro m b t h1 h2
    by_cases hbt : b ≤ t
    · obtain ⟨m2, rfl⟩ : ∃ m2, m = m2 + 1 := by
        cases m with
        | zero => exact absurd h2 (by omega)
        | succ m2 => exact ⟨m2, rfl⟩
      have hcond : (0 < s ∧ b < t + 1) ∨ (s < 0 ∧ t + 1 < b) := Or.inl ⟨hs, by omega⟩
      simp only [pyRangeAux, inclusiveProgAux]
      rw [if_pos hcond, if_pos hbt]
      congr 1
      exact ih m2 (b + s) t (by omega) (by omega)
    · have hc : ¬ ((0 < s ∧ b < t + 1) ∨ (s < 0 ∧ t + 1 < b)) := by omega
      cases m with
      | zero => simp [pyRangeAux, inclusiveProgAux, hc]
      | succ m2 => simp [pyRangeAux, inclusiveProgAux, hc, hbt]

theorem pyRange_eq_inclusiveProg (b t s : Int) (hs : 0 < s) :
    pyRange b (t + 1) s = inclusiveProg b t s := by
  rw [pyRange, inclusiveProg, if_pos hs]
  exact pyRangeAux_eq_progAux s hs ((t + 1 - b).natAbs + 1) ((t + 1 - b).toNat) b t
    (by omega) (by omega)

/-- C7: for every successfully parsed RANGE triple with positive step, the
materialized choice sequence is the string-encoded inclusive arithmetic
progression from bottom to top stepping by step (a positive step being the
only shape an ascending bottom-to-top progression can take); in particular
the `Bottom: 100`, `Top: 1600`, `Step: 100`, `Current: 100` response
yields cached current value "100" and exactly the sixteen choices
"100", "200", ..., "1600". -/
theorem c7_range_progression (b t s : Int) (hs : 0 < s) :
    rangeChoices b t s = .ok ((inclusiveProg b t s).map (fun z => toString z)) ∧
    processSetting respIsoRange (⟨"/main/imgsettings/iso", some "", []⟩ : ConfigEntry) =
      .ok ⟨"/main/imgsettings/iso", some "100",
        ["100", "200", "300", "400", "500", "600", "700", "800", "900", "1000",
         "1100", "1200", "1300", "1400", "1500", "1600"]⟩ := by
  constructor
  · rw [rangeChoices, if_neg (by omega : ¬ s = 0), pyRange_eq_inclusiveProg b t s hs]
  · rfl

theorem c7_range_progression_witness :
    (0 : Int) < 100 ∧
    rangeChoices 100 1600 100 = .ok ((inclusiveProg 100 1600 100).map (fun z => toString z)) :=
  ⟨by norm_num, (c7_range_progression 100 1600 100 (by norm_num)).1⟩

theorem findSub_none_iff (needle : List Char) :
    ∀ h : List Char, (findSub needle h = none ↔ ∀ i, needle.isPrefixOf (h.drop i) = false) := by
  intro h
  induction h with
  | nil =>
    by_cases hp : needle.isPrefixOf ([] : List Char)
    · simp [findSub, hp]
    · simp [findSub, hp]
  | cons c t ih =>
    by_cases hp : needle.isPrefixOf (c :: t)
    · constructor
      · intro habs
        exact absurd habs (by simp [findSub, hp])
      · intro hall
        have := hall 0
        rw [List.drop_zero] at this
        rw [this] at hp
        exact absurd hp (by simp)
    · simp only [findSub, if_neg hp, Option.map_eq_none']
      rw [ih]
      constructor
      · intro hall i
        cases i with
        | zero =>
          rw [List.drop_zero]
          exact Bool.eq_false_iff.mpr hp
        | succ i2 => simpa using hall i2
      · intro hall i
        have := hall (i + 1)
        simpa using this

theorem findSub_some_iff (needle : List Char) :
    ∀ (h : List Char) (i : Nat), (findSub needle h = some i ↔
      (needle.isPrefixOf (h.drop i) = true ∧
       ∀ j, j < i → needle.isPrefixOf (h.drop j) = false)) := by
  intro h
  induction h with
  | nil =>
    intro i
    by_cases hp : needle.isPrefixOf ([] : List Char)
    · constructor
      · intro hs
        have hi : i = 0 := by
          simp [findSub, hp] at hs
          omega
        subst hi
        exact ⟨by simpa using hp, fun j hj => absurd hj (by omega)⟩
      · rintro ⟨h1, h2⟩
        have hi : i = 0 := by
          by_contra hne
          have h3 := h2 0 (by omega)
          rw [List.drop_nil] at h3
          rw [h3] at hp
          exact absurd hp (by simp)
        subst hi
        simp [findSub, hp]
    · constructor
      · intro hs
        exact absurd hs (by simp [findSub, hp])
      · rintro ⟨h1, h2⟩
        rw [List.drop_nil] at h1
        rw [h1] at hp
        exact absurd hp (by simp)
  | cons c t ih =>
    intro i
    by_cases hp : needle.isPrefixOf (c :: t)
    · constructor
      · intro hs
        have hi : i = 0 := by
          simp [findSub, hp] at hs
          omega
        subst hi
        exact ⟨by simpa using hp, fun j hj => absurd hj (by omega)⟩
      · rintro ⟨h1, h2⟩
        have hi : i = 0 := by
          by_contra hne
          have h3 := h2 0 (by omega)
          rw [List.drop_zero] at h3
          rw [h3] at hp
          exact absurd hp (by simp)
        subst hi
        simp [findSub, hp]
    · simp only [findSub, if_neg hp]
      constructor
      · intro hs
        obtain ⟨i2, hi2, rfl⟩ : ∃ i2, findSub needle t = some i2 ∧ i = i2 + 1 := by
          cases hf : findSub needle t with
          | none => rw [hf] at hs; exact absurd hs (by simp)
          | some i2 =>
            rw [hf] at hs
            have : i2 + 1 = i := by simpa using hs
            exact ⟨i2, rfl, this.symm⟩
        obtain ⟨h1, h2⟩ := (ih i2).mp hi2
        refine ⟨by simpa using h1, ?_⟩
        intro j hj
        cases j with
        | zero =>
          rw [List.drop_zero]
          exact Bool.eq_false_iff.mpr hp
        | succ j2 => simpa using h2 j2 (by omega)
      · rintro ⟨h1, h2⟩
        cases i with
        | zero =>
          rw [List.drop_zero] at h1
          rw [h1] at hp
          exact absurd hp (by simp)
        | succ i2 =>
          have htail : findSub needle t = some i2 := by
            rw [ih i2]
            refine ⟨by simpa using h1, ?_⟩
            intro j hj
            have := h2 (j + 1) (by omega)
            simpa using this
          rw [htail]
          simp

theorem pyStrip_cons_space (c : Char) (l : List Char) (hc : isPySpace c = true) :
    pyStrip (c :: l) = pyStrip l := by
  simp [pyStrip, List.dropWhile_cons, hc]

theorem dropWhile_strip_agree :
    ∀ l : List Char, ((l.takeWhile isPySpace).all (fun c => c ≠ '\n')) = true →
      pyStrip ((l.dropWhile isPySpace).takeWhile (fun c => c ≠ '\n')) =
      pyStrip (l.takeWhile (fun c => c ≠ '\n')) := by
  intro l
  induction l with
  | nil => intro _; rfl
  | cons c t ih =>
    intro hall
    by_cases hc : isPySpace c = true
    · rw [List.takeWhile_cons_of_pos hc, List.all_cons, Bool.and_eq_true] at hall
      obtain ⟨h1, h2⟩ := hall
      have hcn : c ≠ '\n' := by simpa using h1
      rw [List.dropWhile_cons_of_pos hc, ih h2]
      rw [show List.takeWhile (fun x => decide (x ≠ '\n')) (c :: t) =
            c :: List.takeWhile (fun x => decide (x ≠ '\n')) t from
          List.takeWhile_cons_of_pos h1]
      rw [pyStrip_cons_space c _ hc]
    · rw [List.dropWhile_cons_of_neg hc]

/-- C10 (amended): `parse_value` anchors at the first occurrence of
`key ++ ":"` anywhere in the text (not line-anchored: mid-line occurrences
and occurrences embedded in a longer key are matched) and returns the
absent value exactly when no occurrence exists; at that first occurrence
it skips the maximal whitespace run after the colon — a run that may cross
line breaks, so a blank remainder pulls the value from a later line — and
then takes the rest of that line, stripped. Whenever the whitespace run
stays on the matched line, this coincides with the claim's reading
("remainder of that line, stripped"). -/
theorem c10_parse_first_occurrence (text key : String) :
    (parse_value text key = none ↔ ∀ i, occursAt text key i = false) ∧
    (∀ i, occursAt text key i = true → (∀ j, j < i → occursAt text key j = false) →
      parse_value text key = some (extractFrom text key i)) ∧
    (wsRunSameLine text key = true → parse_value text key = claimedLineValue text key) := by
  refine ⟨?_, ?_, ?_⟩
  · cases hf : findSub ((key ++ ":").data) text.data with
    | none =>
      have h2 := (findSub_none_iff ((key ++ ":").data) text.data).mp hf
      simp only [parse_value, hf]
      constructor
      · intro _ i
        exact h2 i
      · intro _
        trivial
    | some i0 =>
      have h2 := (findSub_some_iff ((key ++ ":").data) text.data i0).mp hf
      simp only [parse_value, hf]
      constructor
      · intro habs
        exact absurd habs (by simp)
      · intro hall
        have h3 : ((key ++ ":").data).isPrefixOf (text.data.drop i0) = false := hall i0
        rw [h2.1] at h3
        exact absurd h3 (by simp)
  · intro i hocc hmin
    have hf : findSub ((key ++ ":").data) text.data = some i := by
      rw [findSub_some_iff]
      exact ⟨hocc, fun j hj => hmin j hj⟩
    simp only [parse_value, hf]
    rfl
  · intro hws
    cases hf : findSub ((key ++ ":").data) text.data with
    | none => simp only [parse_value, claimedLineValue, hf]
    | some i =>
      simp only [parse_value, claimedLineValue, hf, Option.some.injEq]
      congr 1
      apply dropWhile_strip_agree
      simp only [wsRunSameLine, hf] at hws
      exact hws

theorem c10_parse_first_occurrence_witness :
    occursAt "a SubType: R" "Type" 5 = true ∧
    (∀ j, j < 5 → occursAt "a SubType: R" "Type" j = false) ∧
    parse_value "a SubType: R" "Type" = some (extractFrom "a SubType: R" "Type" 5) := by
  refine ⟨by decide, by decide, ?_⟩
  exact (c10_parse_first_occurrence "a SubType: R" "Type").2.1 5 (by decide) (by decide)

/-- C10 counterexample to the claim as stated: in "Top:\nX" the remainder
of the matched line after "Top:" is empty, so the claim's
remainder-of-that-line reading yields the empty string; the code's greedy
`\s*` crosses the newline and returns "X". -/
theorem c10_counterexample :
    parse_value "Top:\nX" "Top" = some "X" ∧
    claimedLineValue "Top:\nX" "Top" = some "" ∧
    (some "X" : Option String) ≠ some "" := by
  refine ⟨by rfl, by rfl, by decide⟩
